import Mathlib

/-!
Shallow embedding of the selection engine of `src/js/algorithms.js`
(class `CallAlgorithm`, first variant in the file, the one the claims cite).

Modelling conventions:
* JS numbers that hold list indices and call counts are `Nat`; values that
  may be negative (the `groupCount` option, sort comparators) are `Int`;
  `Math.random()` results, weights and scores are exact rationals.
* Each executed `Math.floor(Math.random() * n)` site is modelled by
  `randIndex r n` for a caller-supplied draw `r` with `0 ≤ r < 1`, and
  `Math.random() * totalWeight` by `r * totalWeight`.
* The JS `Set` of already-selected ids is a `Finset Nat`; the source uses
  only membership, insertion, size and clearing.
* `Array.prototype.sort` is a stable sort; every comparator the source
  passes is a total preorder, for which all stable sorts agree, so sorting
  is modelled by the stable `List.insertionSort` with the relation
  "comparator result is not positive".
* The random shuffle `[...students].sort(() => Math.random() - 0.5)`
  rearranges the array into an engine-internal permutation; it is modelled
  by a caller-supplied `shuffle` function.
* The storage collaborator method `storageManager.shouldExcludeStudent`
  (its source file is not part of the repository snapshot) is an abstract
  boolean predicate, `Option`-wrapped because the constructor may receive
  no storage manager.
-/

namespace DMDM

/-- Roster entry: `id`, `name`, `callCount` (the JS `student.callCount || 0`
is modelled by a total `Nat` field) and the optional `lastCalled` timestamp
in milliseconds. -/
structure Student where
  id : Nat
  name : String
  callCount : Nat
  lastCalled : Option Int
  deriving DecidableEq

/-- Transient engine state: the `lastSelectedStudent` id, the
`selectedStudents` set and the `avoidImmediateRepeat` flag of the
`CallAlgorithm` instance. -/
structure EngineState where
  lastSelectedStudent : Option Nat
  selectedStudents : Finset Nat
  avoidImmediateRepeat : Bool
  deriving DecidableEq

/-- Recognized `options` object of `selectStudent`:
`options.avoidImmediateRepeat || false` and `options.groupCount` (an absent
field is `none`). -/
structure Options where
  avoidImmediateRepeat : Bool
  groupCount : Option Int
  deriving DecidableEq

/-- Random inputs consumed by one `selectStudent` call: `r` is the uniform
draw of the executed random site of the chosen policy (also the in-group
pick of `groupRandom`), `rGroup` the group-index draw of `groupRandom`,
`now` the current time read by `timeBalanced`, and `shuffle` the
permutation produced by the random-comparator shuffle of `groupRandom`. -/
structure Draw where
  r : ℚ
  rGroup : ℚ
  now : Int
  shuffle : List Student → List Student

/-- Index produced by `Math.floor(Math.random() * n)` for a draw `r`. -/
def randIndex (r : ℚ) (n : Nat) : Nat := (Int.floor (r * n)).toNat

/-- JS numeric default `x || d`: `undefined` and `0` are falsy. -/
def jsOr (x : Option Int) (d : Int) : Int :=
  match x with
  | none => d
  | some v => if v = 0 then d else v

/-- JS `Math.max(...xs)` over a non-empty spread (`0` stands for the empty
case, which the source never reaches at this site). -/
def maxOfList : List Nat → Nat
  | [] => 0
  | x :: xs => xs.foldl max x

/-- JS `Math.min(...xs)` over a non-empty spread. -/
def minOfList : List Nat → Nat
  | [] => 0
  | x :: xs => xs.foldl min x

/-- The state of a freshly constructed `CallAlgorithm`. -/
def initialState : EngineState := ⟨none, ∅, false⟩

/-- Algorithm tag accepted by the `switch` in `selectStudent`. -/
def algFair : String := "fair"

/-- Algorithm tag of the weighted policy. -/
def algWeighted : String := "weighted"

/-- Algorithm tag of the least-called policy. -/
def algLeastCalled : String := "leastCalled"

/-- Algorithm tag of the round-robin policy. -/
def algRoundRobin : String := "roundRobin"

/-- Algorithm tag of the time-balanced policy. -/
def algTimeBalanced : String := "timeBalanced"

/-- Algorithm tag of the group policy. -/
def algGroup : String := "group"

/-- Method `setAvoidImmediateRepeat`: store the flag and clear the set when
the flag is turned off. -/
def setAvoidImmediateRepeat (st : EngineState) (avoid : Bool) : EngineState :=
  if avoid then { st with avoidImmediateRepeat := avoid }
  else { st with avoidImmediateRepeat := avoid, selectedStudents := ∅ }

/-- Method `fairRandom` (lines 37 to 63). -/
def fairRandom (st : EngineState) (students : List Student) (r : ℚ) : Option Student :=
  if students.length = 0 then none
  else if students.length = 1 then students[0]?
  else if st.avoidImmediateRepeat ∧ st.selectedStudents.card < students.length - 1 then
    let availableStudents := students.filter fun s => decide (s.id ∉ st.selectedStudents)
    if 0 < availableStudents.length then
      availableStudents[randIndex r availableStudents.length]?
    else students[randIndex r students.length]?
  else students[randIndex r students.length]?

/-- Loop of `selectByWeight` (lines 303 to 308): subtract weights until the
running remainder is not positive and return that student; `none` when the
loop finishes without returning. -/
def weightWalk : List (Student × ℚ) → ℚ → Option Student
  | [], _ => none
  | (s, w) :: rest, remainder =>
      if remainder - w ≤ 0 then some s else weightWalk rest (remainder - w)

/-- Method `selectByWeight` (lines 292 to 312): total weight, uniform
fallback for a non-positive total, the subtraction walk, and the final
fall-back to the last entry. -/
def selectByWeight (studentsWithWeights : List (Student × ℚ)) (r : ℚ) : Option Student :=
  let totalWeight := (studentsWithWeights.map Prod.snd).sum
  if totalWeight ≤ 0 then
    (studentsWithWeights[randIndex r studentsWithWeights.length]?).map Prod.fst
  else
    match weightWalk studentsWithWeights (r * totalWeight) with
    | some s => some s
    | none => studentsWithWeights.getLast?.map Prod.fst

/-- Method `weightedRandom` (lines 70 to 101). -/
def weightedRandom (st : EngineState) (students : List Student) (r : ℚ) : Option Student :=
  if students.length = 0 then none
  else if students.length = 1 then students[0]?
  else
    let studentsWithWeights := students.map fun s =>
      let maxCallCount := maxOfList (students.map Student.callCount)
      (s, ((1 : ℚ) + (((maxCallCount : ℤ) - (s.callCount : ℤ)) : ℚ)))
    let withDoubling :=
      if st.avoidImmediateRepeat ∧ st.selectedStudents.card < students.length - 1 then
        studentsWithWeights.map fun p =>
          if p.1.id ∉ st.selectedStudents then (p.1, p.2 * 2) else p
      else studentsWithWeights
    selectByWeight withDoubling r

/-- Comparator passed to the sort in `leastCalledFirst` (lines 119 to 133). -/
def lcComparator (st : EngineState) (a b : Student) : Int :=
  if st.avoidImmediateRepeat ∧ a.id ∈ st.selectedStudents ∧ b.id ∉ st.selectedStudents then 1
  else if st.avoidImmediateRepeat ∧ a.id ∉ st.selectedStudents ∧ b.id ∈ st.selectedStudents then
    -1
  else (a.callCount : Int) - b.callCount

/-- Shared tail of `leastCalledFirst` (lines 153 to 160): uniform pick among
the students with the minimum call count. -/
def lcNormalPick (sortedStudents : List Student) (r : ℚ) : Option Student :=
  let minCallCount := minOfList (sortedStudents.map Student.callCount)
  let leastCalledStudents := sortedStudents.filter fun s => decide (s.callCount = minCallCount)
  leastCalledStudents[randIndex r leastCalledStudents.length]?

/-- Method `leastCalledFirst` (lines 108 to 161). -/
def leastCalledFirst (st : EngineState) (students : List Student) (r : ℚ) : Option Student :=
  if students.length = 0 then none
  else if students.length = 1 then students[0]?
  else
    let sortedStudents := List.insertionSort (fun a b => lcComparator st a b ≤ 0) students
    if st.avoidImmediateRepeat then
      let unselectedStudents :=
        sortedStudents.filter fun s => decide (s.id ∉ st.selectedStudents)
      if 0 < unselectedStudents.length then
        let minCallCount := minOfList (unselectedStudents.map Student.callCount)
        let leastCalledStudents :=
          unselectedStudents.filter fun s => decide (s.callCount = minCallCount)
        leastCalledStudents[randIndex r leastCalledStudents.length]?
      else lcNormalPick sortedStudents r
    else lcNormalPick sortedStudents r

/-- Method `roundRobin` (lines 168 to 195); it can clear the
`selectedStudents` set, so it returns the updated state as well. -/
def roundRobin (st : EngineState) (students : List Student) : Option Student × EngineState :=
  if students.length = 0 then (none, st)
  else if students.length = 1 then (students[0]?, st)
  else if st.selectedStudents.card = 0 then (students[0]?, st)
  else
    let lastIndex : Int :=
      match students.findIdx? fun s => decide (some s.id = st.lastSelectedStudent) with
      | some i => (i : Int)
      | none => -1
    let nextIndex := ((lastIndex + 1) % (students.length : Int)).toNat
    if st.avoidImmediateRepeat ∧ students.length - 1 ≤ st.selectedStudents.card then
      (students[nextIndex]?, { st with selectedStudents := ∅ })
    else (students[nextIndex]?, st)

/-- Method `timeBalanced` (lines 202 to 248); `now` is the value of
`new Date()` in milliseconds and a missing `lastCalled` is `new Date(0)`. -/
def timeBalanced (st : EngineState) (students : List Student) (now : Int) (r : ℚ) :
    Option Student :=
  if students.length = 0 then none
  else if students.length = 1 then students[0]?
  else
    let studentsWithScores := students.map fun s =>
      let lastCalled : Int := s.lastCalled.getD 0
      let timeDiff : ℚ := (((now - lastCalled) : ℤ) : ℚ) / (1000 * 60 * 60)
      let score1 := timeDiff + (if s.callCount = 0 then (24 : ℚ) else 0)
      let score2 := score1 + (((students.length : ℤ) : ℚ) - (s.callCount : ℚ)) * 2
      let score3 :=
        score2 + (if st.avoidImmediateRepeat ∧ s.id ∉ st.selectedStudents then (10 : ℚ) else 0)
      (s, score3)
    let sorted :=
      List.insertionSort (fun a b : Student × ℚ => b.2 - a.2 ≤ 0) studentsWithScores
    let topCandidates := sorted.take (min 3 sorted.length)
    (topCandidates[randIndex r topCandidates.length]?).map Prod.fst

/-- Method `groupRandom` (lines 256 to 285); `shuffle` stands for the
random-comparator shuffle, `rGroup` for the group draw and `r` for the
in-group draw. When the chosen chunk index is out of range the JS reads
`undefined` and `fairRandom(undefined)` yields null, modelled by the
`none` arm of the final match. -/
def groupRandom (st : EngineState) (students : List Student) (groupCount : Int)
    (shuffle : List Student → List Student) (rGroup r : ℚ) : Option Student :=
  if students.length = 0 then none
  else if (students.length : Int) < groupCount then fairRandom st students r
  else
    let shuffled := shuffle students
    let groupSize := (students.length + groupCount.toNat - 1) / groupCount.toNat
    let groups := (List.range groupCount.toNat).map fun i =>
      let start := i * groupSize
      let stop := min (start + groupSize) students.length
      (shuffled.drop start).take (stop - start)
    match groups[randIndex rGroup groups.length]? with
    | none => none
    | some selectedGroup => fairRandom st selectedGroup r

/-- The `switch (algorithm)` of `selectStudent` (lines 344 to 365); only
`roundRobin` can change the state. -/
def dispatchAlgorithm (st : EngineState) (availableStudents : List Student)
    (algorithm : String) (opts : Options) (d : Draw) : Option Student × EngineState :=
  match algorithm with
  | "fair" => (fairRandom st availableStudents d.r, st)
  | "weighted" => (weightedRandom st availableStudents d.r, st)
  | "leastCalled" => (leastCalledFirst st availableStudents d.r, st)
  | "roundRobin" => roundRobin st availableStudents
  | "timeBalanced" => (timeBalanced st availableStudents d.now d.r, st)
  | "group" =>
      (groupRandom st availableStudents (jsOr opts.groupCount 3) d.shuffle d.rGroup d.r, st)
  | _ => (fairRandom st availableStudents d.r, st)

/-- Update block at the end of `selectStudent` (lines 367 to 378). -/
def applySelection (st : EngineState) (availableStudents : List Student)
    (selected : Option Student) : Option Student × EngineState :=
  match selected with
  | none => (none, st)
  | some s =>
      let st1 := { st with lastSelectedStudent := some s.id }
      if st1.avoidImmediateRepeat then
        let newSet := insert s.id st1.selectedStudents
        if availableStudents.length ≤ newSet.card then
          (some s, { st1 with selectedStudents := (∅ : Finset Nat) })
        else (some s, { st1 with selectedStudents := newSet })
      else (some s, st1)

/-- Method `filterStudentsBySpecialStatus` (lines 389 to 406): keep the
students the storage predicate does not exclude. -/
def filterStudentsBySpecialStatus (storage : Option (Nat → String → Bool))
    (students : List Student) (algorithm : String) : List Student :=
  match storage with
  | none => students
  | some shouldExcludeStudent =>
      if algorithm = algFair then students
      else students.filter fun s => !(shouldExcludeStudent s.id algorithm)

/-- Entry point `selectStudent` (lines 321 to 381). -/
def selectStudent (storage : Option (Nat → String → Bool)) (st : EngineState)
    (students : List Student) (algorithm : String) (opts : Options) (d : Draw) :
    Option Student × EngineState :=
  if students.length = 0 then (none, st)
  else
    let st1 := setAvoidImmediateRepeat st opts.avoidImmediateRepeat
    if algorithm ≠ algFair ∧ storage.isSome then
      let availableStudents := filterStudentsBySpecialStatus storage students algorithm
      if availableStudents.length = 0 then (none, st1)
      else
        let res := dispatchAlgorithm st1 availableStudents algorithm opts d
        applySelection res.2 availableStudents res.1
    else
      let res := dispatchAlgorithm st1 students algorithm opts d
      applySelection res.2 students res.1

/-- Draw with all randomness at zero and the identity shuffle. -/
def defaultDraw : Draw := ⟨0, 0, 0, id⟩

/-- Loop of `selectMultipleStudents` (lines 428 to 438). The source calls
the `async` method `selectStudent` without `await`: with no storage
collaborator the body still runs synchronously at call time, but the loop
variable holds the promise, whose `id` property is `undefined`, so
`findIndex(s => s.id === selectedStudent.id)` is `-1` and the pool is
never shrunk; the promise is always truthy, so one element is pushed per
iteration. The model records the values the pushed promises resolve to. -/
def batchLoop (storage : Option (Nat → String → Bool)) (algorithm : String) (opts : Options) :
    Nat → EngineState → List Student → List Draw → List (Option Student) × EngineState
  | 0, st, _, _ => ([], st)
  | n + 1, st, pool, draws =>
      let res := selectStudent storage st pool algorithm opts (draws.headD defaultDraw)
      let rest := batchLoop storage algorithm opts n res.2 pool draws.tail
      (res.1 :: rest.1, rest.2)

/-- Method `selectMultipleStudents` (lines 416 to 444). -/
def selectMultipleStudents (storage : Option (Nat → String → Bool)) (st : EngineState)
    (students : List Student) (count : Int) (algorithm : String) (opts : Options)
    (draws : List Draw) : List (Option Student) × EngineState :=
  if students.length = 0 ∨ count ≤ 0 then ([], st)
  else
    let originalAvoidRepeat := st.avoidImmediateRepeat
    let st1 := setAvoidImmediateRepeat st true
    let run :=
      batchLoop storage algorithm opts (min count.toNat students.length) st1 students draws
    (run.1, setAvoidImmediateRepeat run.2 originalAvoidRepeat)

/-- Run a sequence of `selectStudent` calls on a fixed roster, threading the
engine state and collecting the results. -/
def runCalls (storage : Option (Nat → String → Bool)) (students : List Student) :
    EngineState → List (String × Options × Draw) → List (Option Student) × EngineState
  | st, [] => ([], st)
  | st, c :: rest =>
      let res := selectStudent storage st students c.1 c.2.1 c.2.2
      let tail := runCalls storage students res.2 rest
      (res.1 :: tail.1, tail.2)

/-! ### Specification-side definitions

These are written from the wording of the claims, to be compared with the
source-side functions above. -/

/-- Selection function claim C7 describes for the fair policy: a uniform
pick over the full input roster, independent of the engine state. -/
def claimFairUniform (students : List Student) (r : ℚ) : Option Student :=
  students[randIndex r students.length]?

/-- Weight claim C4 assigns to a student: base weight
`1 + (max callCount - callCount)`, doubled for every entity not yet chosen
this cycle whenever repeat-avoidance is on. -/
def claimWeight (st : EngineState) (students : List Student) (s : Student) : ℚ :=
  ((1 : ℚ) + (((maxOfList (students.map Student.callCount) : ℤ) - (s.callCount : ℤ)) : ℚ)) *
    (if st.avoidImmediateRepeat ∧ s.id ∉ st.selectedStudents then 2 else 1)

/-- Weighted selection exactly as claim C4 words it (the draw procedure of
the claim coincides with `selectByWeight`: total weight, uniform value in
`[0, total)`, subtraction walk in roster order, uniform fallback for a
non-positive total). -/
def claimWeightedSelect (st : EngineState) (students : List Student) (r : ℚ) :
    Option Student :=
  selectByWeight (students.map fun s => (s, claimWeight st students s)) r

/-- Amended weight: the doubling additionally requires the excluded set to
be smaller than the roster size minus one, as the source condition does. -/
def amendedWeight (st : EngineState) (students : List Student) (s : Student) : ℚ :=
  ((1 : ℚ) + (((maxOfList (students.map Student.callCount) : ℤ) - (s.callCount : ℤ)) : ℚ)) *
    (if st.avoidImmediateRepeat ∧ st.selectedStudents.card < students.length - 1 ∧
        s.id ∉ st.selectedStudents then 2 else 1)

/-- Weighted selection under the amended weight formula. -/
def amendedWeightedSelect (st : EngineState) (students : List Student) (r : ℚ) :
    Option Student :=
  selectByWeight (students.map fun s => (s, amendedWeight st students s)) r

/-- Candidate pool the amended claim C6 speaks about: the eligible entities
not yet chosen this cycle when repeat-avoidance is on and such entities
exist, the whole eligible roster otherwise. -/
def lcPool (st : EngineState) (students : List Student) : List Student :=
  let unselected := students.filter fun s => decide (s.id ∉ st.selectedStudents)
  if st.avoidImmediateRepeat ∧ unselected ≠ [] then unselected else students

/-! ### Fixtures used by the concrete evaluations -/

/-- Student with id 1 and call count 0. -/
def sA : Student := ⟨1, "A", 0, none⟩

/-- Student with id 2 and call count 0. -/
def sB : Student := ⟨2, "B", 0, none⟩

/-- Student with id 3 and call count 0. -/
def sC : Student := ⟨3, "C", 0, none⟩

/-- Student with id 4 and call count 0. -/
def sD : Student := ⟨4, "D", 0, none⟩

/-- Three-entity roster. -/
def rosterABC : List Student := [sA, sB, sC]

/-- Four-entity roster. -/
def rosterABCD : List Student := [sA, sB, sC, sD]

/-- Student with id 2 and call count 5. -/
def sB5 : Student := ⟨2, "B", 5, none⟩

/-- Two-entity roster whose second entity has the higher call count. -/
def rosterAB5 : List Student := [sA, sB5]

/-- Scenario roster of claim C6. -/
def rosterScenario : List Student := [⟨1, "A", 5, none⟩, ⟨2, "B", 0, none⟩, ⟨3, "C", 2, none⟩]

/-- Options with repeat-avoidance off and no group count. -/
def optsOff : Options := ⟨false, none⟩

/-- Options with repeat-avoidance on and no group count. -/
def optsOn : Options := ⟨true, none⟩

/-- Draw carrying only the single uniform value `r`. -/
def drawR (r : ℚ) : Draw := ⟨r, 0, 0, id⟩

/-! ### Helper lemmas -/

lemma foldl_min_le_init (xs : List Nat) (a : Nat) : xs.foldl min a ≤ a := by
  induction xs generalizing a with
  | nil => exact le_refl a
  | cons y ys ih => exact le_trans (ih (min a y)) (min_le_left a y)

lemma foldl_min_le_mem : ∀ (xs : List Nat) (a x : Nat), x ∈ xs → xs.foldl min a ≤ x
  | [], _, _, hx => absurd hx (List.not_mem_nil _)
  | y :: ys, a, x, hx => by
      rcases List.mem_cons.mp hx with rfl | hmem
      · exact le_trans (foldl_min_le_init ys (min a x)) (min_le_right a x)
      · exact foldl_min_le_mem ys (min a y) x hmem

lemma minOfList_le {x : Nat} {l : List Nat} (hx : x ∈ l) : minOfList l ≤ x := by
  cases l with
  | nil => cases hx
  | cons y ys =>
      rcases List.mem_cons.mp hx with rfl | hmem
      · exact foldl_min_le_init ys x
      · exact foldl_min_le_mem ys y x hmem

lemma randIndex_lt {r : ℚ} {n : Nat} (h0 : 0 ≤ r) (h1 : r < 1) (hn : 0 < n) :
    randIndex r n < n := by
  have hfl : Int.floor (r * (n : ℚ)) < (n : ℤ) := by
    apply Int.floor_lt.mpr
    push_cast
    calc r * (n : ℚ) < 1 * (n : ℚ) := by
          exact mul_lt_mul_of_pos_right h1 (by exact_mod_cast hn)
      _ = (n : ℚ) := one_mul _
  have hnn : (0 : ℤ) ≤ Int.floor (r * (n : ℚ)) := by
    apply Int.floor_nonneg.mpr
    positivity
  unfold randIndex
  omega

lemma randIndex_one {r : ℚ} (h0 : 0 ≤ r) (h1 : r < 1) : randIndex r 1 = 0 := by
  unfold randIndex
  rw [Nat.cast_one, mul_one, Int.floor_eq_zero_iff.mpr ⟨h0, h1⟩]
  rfl

lemma randIndex_zero (n : Nat) : randIndex 0 n = 0 := by
  unfold randIndex
  rw [zero_mul, Int.floor_zero]
  rfl

lemma applySelection_fst (st : EngineState) (avail : List Student) (sel : Option Student) :
    (applySelection st avail sel).1 = sel := by
  unfold applySelection
  cases sel with
  | none => rfl
  | some s =>
      dsimp only
      split_ifs <;> rfl

lemma applySelection_avoid (st : EngineState) (avail : List Student) (sel : Option Student) :
    ((applySelection st avail sel).2).avoidImmediateRepeat = st.avoidImmediateRepeat := by
  unfold applySelection
  cases sel with
  | none => rfl
  | some s =>
      dsimp only
      split_ifs <;> rfl

lemma applySelection_selected_of_off (st : EngineState) (avail : List Student)
    (sel : Option Student) (h : st.avoidImmediateRepeat = false) :
    ((applySelection st avail sel).2).selectedStudents = st.selectedStudents := by
  unfold applySelection
  cases sel with
  | none => rfl
  | some s => simp [h]

lemma roundRobin_state (st : EngineState) (students : List Student) :
    (roundRobin st students).2 = st ∨
      (roundRobin st students).2 = { st with selectedStudents := ∅ } := by
  unfold roundRobin
  split
  · exact Or.inl rfl
  split
  · exact Or.inl rfl
  split
  · exact Or.inl rfl
  dsimp only
  split
  · exact Or.inr rfl
  · exact Or.inl rfl

lemma dispatch_state (st : EngineState) (avail : List Student) (algorithm : String)
    (opts : Options) (d : Draw) :
    (dispatchAlgorithm st avail algorithm opts d).2 = st ∨
      (dispatchAlgorithm st avail algorithm opts d).2
        = { st with selectedStudents := ∅ } := by
  unfold dispatchAlgorithm
  split
  · exact Or.inl rfl
  · exact Or.inl rfl
  · exact Or.inl rfl
  · exact roundRobin_state st avail
  · exact Or.inl rfl
  · exact Or.inl rfl
  · exact Or.inl rfl

lemma setAvoid_card (st : EngineState) (b : Bool) :
    (setAvoidImmediateRepeat st b).selectedStudents.card ≤ st.selectedStudents.card := by
  unfold setAvoidImmediateRepeat
  split <;> simp

lemma applySelection_card {st : EngineState} {avail : List Student} {sel : Option Student}
    {n : Nat} (hn : 0 < n) (hlen : avail.length = n)
    (hcard : st.selectedStudents.card < n) :
    ((applySelection st avail sel).2).selectedStudents.card < n := by
  unfold applySelection
  cases sel with
  | none => exact hcard
  | some s =>
      dsimp only
      split_ifs with h1 h2
      · simpa using hn
      · simp only
        omega
      · exact hcard

lemma intToNat_three : (3 : Int).toNat = 3 := rfl

lemma intToNat_negOne : (-1 : Int).toNat = 0 := rfl

lemma ri_fiveSixths_three : randIndex (5 / 6) 3 = 2 := by
  norm_num [randIndex]
  decide

/-! ### Claim theorems -/

/-- Claim C1 (code_bug evidence). The claim says `selectStudent` returns a
roster member for every policy and yields `none` only on an empty roster,
in particular never under the group policy with a recognized
`groupCount ≥ 1`. On a four-entity roster with `groupCount = 3` the source
builds chunks of size `ceil(4 / 3) = 2`, so the third chunk is empty; the
group draw `5 / 6` selects chunk index 2 and the call returns `none`. -/
theorem C1_group_none_on_nonempty_roster :
    rosterABCD.length = 4 ∧
      (selectStudent none initialState rosterABCD algGroup ⟨false, some 3⟩
          ⟨0, 5 / 6, 0, id⟩).1 = none := by
  refine ⟨rfl, ?_⟩
  norm_num [selectStudent, setAvoidImmediateRepeat, filterStudentsBySpecialStatus,
    dispatchAlgorithm, groupRandom, fairRandom, jsOr, applySelection, algGroup, algFair,
    rosterABCD, sA, sB, sC, sD, initialState, intToNat_three, ri_fiveSixths_three]

/-- Claim C2 (code_bug evidence). The claim says consecutive `roundRobin`
calls with repeat-avoidance off cycle `A, B, C, A, …`. With repeat-avoidance
off the `selectedStudents` set stays empty, and `roundRobin` returns the
first roster entry whenever that set is empty, so the second call returns
`A` again instead of `B`. -/
theorem C2_roundRobin_off_repeats_first :
    (runCalls none rosterABC initialState
        [(algRoundRobin, optsOff, drawR 0), (algRoundRobin, optsOff, drawR 0)]).1
      = [some sA, some sA] := by
  norm_num [runCalls, selectStudent, setAvoidImmediateRepeat, filterStudentsBySpecialStatus,
    dispatchAlgorithm, roundRobin, applySelection, algRoundRobin, algFair, rosterABC,
    sA, sB, sC, initialState, optsOff, drawR]

/-- Claim C3 counterexample. Three `fair` calls with repeat-avoidance on,
each with draw 0, on the roster `[A, B, C]` return `A, B, A`: entity `A` is
selected a second time although `C` has never been selected, because the
source stops filtering once the excluded set has reached roster size minus
one. -/
theorem C3_fair_repeat_before_full_cycle :
    (runCalls none rosterABC initialState
        [(algFair, optsOn, drawR 0), (algFair, optsOn, drawR 0),
          (algFair, optsOn, drawR 0)]).1
      = [some sA, some sB, some sA] ∧ sA ≠ sC := by
  refine ⟨?_, by decide⟩
  norm_num [runCalls, selectStudent, setAvoidImmediateRepeat, filterStudentsBySpecialStatus,
    dispatchAlgorithm, fairRandom, applySelection, algFair, rosterABC, sA, sB, sC,
    initialState, optsOn, drawR, randIndex_zero]

/-- Claim C5 (code_bug evidence). The claim says
`selectMultipleStudents(roster, N ≤ roster.length, …)` returns N entities
with pairwise distinct ids, removing each chosen entity from the pool. The
source calls the `async` method `selectStudent` without `await`, so the
removal test compares against the undefined `id` of a promise and the pool
never shrinks; moreover the batch-wide `setAvoidImmediateRepeat(true)` is
overwritten inside every inner call by `options.avoidImmediateRepeat ||
false`. With draws `0, 0, 0` the resolved picks on `[A, B, C]` with
`count = 3` are `A, A, A`: duplicate ids. -/
theorem C5_batch_duplicate :
    (selectMultipleStudents none initialState rosterABC 3 algFair optsOff
        [drawR 0, drawR 0, drawR 0]).1
      = [some sA, some sA, some sA] ∧ sA ≠ sB := by
  refine ⟨?_, by decide⟩
  norm_num [selectMultipleStudents, batchLoop, selectStudent, setAvoidImmediateRepeat,
    filterStudentsBySpecialStatus, dispatchAlgorithm, fairRandom, applySelection, algFair,
    rosterABC, sA, sB, sC, initialState, optsOff, drawR, defaultDraw, randIndex_zero]

/-- Claim C8: when the collaborator exclusion predicate excludes every
roster entity, `selectStudent` under any non-fair policy returns `none`
without falling back to the fair policy or the unfiltered roster. -/
theorem C8_all_excluded_returns_none (p : Nat → String → Bool) (st : EngineState)
    (students : List Student) (algorithm : String) (opts : Options) (d : Draw)
    (halg : algorithm ≠ algFair) (hne : students ≠ [])
    (hex : ∀ s ∈ students, p s.id algorithm = true) :
    (selectStudent (some p) st students algorithm opts d).1 = none := by
  have hlen : ¬students.length = 0 := by
    simpa [List.length_eq_zero] using hne
  have hfilter : filterStudentsBySpecialStatus (some p) students algorithm = [] := by
    simp only [filterStudentsBySpecialStatus, if_neg halg, List.filter_eq_nil_iff]
    intro a ha
    simp [hex a ha]
  simp [selectStudent, hlen, halg, hfilter]

/-- Witness for claim C8 at a concrete input. -/
theorem C8_witness :
    (selectStudent (some fun _ _ => true) initialState [sA] algWeighted optsOff
        defaultDraw).1 = none :=
  C8_all_excluded_returns_none _ _ _ _ _ _ (by decide) (by decide) (fun _ _ => rfl)

/-- Claim C9 (code_bug evidence). The claim says a `groupCount` below 1 is
clamped to 1 and the call still returns a member of a non-empty roster.
The source only replaces the falsy value 0 by the default 3; a negative
`groupCount` passes through `options.groupCount || 3` unchanged, the chunk
loop builds no group at all, and the call returns `none` on a three-entity
roster. -/
theorem C9_negative_groupCount_none :
    rosterABC.length = 3 ∧
      (selectStudent none initialState rosterABC algGroup ⟨false, some (-1)⟩
          (drawR 0)).1 = none := by
  refine ⟨rfl, ?_⟩
  norm_num [selectStudent, setAvoidImmediateRepeat, filterStudentsBySpecialStatus,
    dispatchAlgorithm, groupRandom, fairRandom, jsOr, applySelection, algGroup, algFair,
    rosterABC, sA, sB, sC, initialState, drawR, intToNat_negOne, randIndex_zero]

/-- Claim C3, amended part: on a fixed non-empty roster with no storage
collaborator, the size of the excluded set stays strictly below the roster
size after every `selectStudent` call (the source clears the set as soon as
adding the selected id would make it reach the roster size). The
no-repeat-before-full-cycle part of the claim is refuted by
the counterexample theorem. -/
theorem C3_size_invariant (st : EngineState) (students : List Student) (algorithm : String)
    (opts : Options) (d : Draw) (hne : students ≠ [])
    (hcard : st.selectedStudents.card < students.length) :
    ((selectStudent none st students algorithm opts d).2).selectedStudents.card
      < students.length := by
  have hlen : ¬students.length = 0 := by simpa [List.length_eq_zero] using hne
  have hpos : 0 < students.length := List.length_pos.mpr hne
  have h1 : (setAvoidImmediateRepeat st opts.avoidImmediateRepeat).selectedStudents.card
      < students.length := lt_of_le_of_lt (setAvoid_card st _) hcard
  simp only [selectStudent, if_neg hlen, Option.isSome_none, Bool.false_eq_true, and_false,
    if_false]
  rcases dispatch_state (setAvoidImmediateRepeat st opts.avoidImmediateRepeat) students
      algorithm opts d with h | h
  · rw [h]
    exact applySelection_card hpos rfl h1
  · rw [h]
    exact applySelection_card hpos rfl (by simpa using hpos)

/-- Witness for the amended claim C3 at a concrete input. -/
theorem C3_size_invariant_witness :
    ((selectStudent none initialState rosterABC algFair optsOn
        (drawR 0)).2).selectedStudents.card < rosterABC.length :=
  C3_size_invariant _ _ _ _ _ (by decide) (by decide)

/-- Claim C10 counterexample: a `selectStudent` call on an empty roster
returns before the flag update, so it neither overwrites
`avoidImmediateRepeat` nor clears the excluded set, although its options
leave `avoidImmediateRepeat` off. -/
theorem C10_empty_roster_keeps_state :
    (selectStudent none ⟨some 1, {1}, true⟩ [] algFair optsOff (drawR 0)).2
        = ⟨some 1, {1}, true⟩ ∧
      (⟨some 1, {1}, true⟩ : EngineState).selectedStudents ≠ ∅ ∧
      optsOff.avoidImmediateRepeat = false := by
  exact ⟨rfl, by decide, rfl⟩

lemma selectCore_props (st1 : EngineState) (avail : List Student) (algorithm : String)
    (opts : Options) (d : Draw) :
    ((applySelection (dispatchAlgorithm st1 avail algorithm opts d).2 avail
          (dispatchAlgorithm st1 avail algorithm opts d).1).2).avoidImmediateRepeat
        = st1.avoidImmediateRepeat ∧
      (st1.avoidImmediateRepeat = false → st1.selectedStudents = ∅ →
        ((applySelection (dispatchAlgorithm st1 avail algorithm opts d).2 avail
            (dispatchAlgorithm st1 avail algorithm opts d).1).2).selectedStudents = ∅) := by
  rcases dispatch_state st1 avail algorithm opts d with h | h <;> rw [h]
  · exact ⟨applySelection_avoid _ _ _, fun hf he => by
      rw [applySelection_selected_of_off _ _ _ hf, he]⟩
  · refine ⟨applySelection_avoid _ _ _, fun hf he => ?_⟩
    rw [applySelection_selected_of_off { st1 with selectedStudents := ∅ } _ _ hf]

/-- Claim C10, amended: every `selectStudent` call on a NON-EMPTY roster
overwrites the engine flag with `options.avoidImmediateRepeat` (default
false), and when that option is off the excluded set is empty after the
call; for an empty roster, the call returns before touching the state, as
the counterexample shows. -/
theorem C10_flag_overwrite (storage : Option (Nat → String → Bool)) (st : EngineState)
    (students : List Student) (algorithm : String) (opts : Options) (d : Draw)
    (hne : students ≠ []) :
    ((selectStudent storage st students algorithm opts d).2).avoidImmediateRepeat
        = opts.avoidImmediateRepeat ∧
      (opts.avoidImmediateRepeat = false →
        ((selectStudent storage st students algorithm opts d).2).selectedStudents = ∅) := by
  have hlen : ¬students.length = 0 := by simpa [List.length_eq_zero] using hne
  have hst1a : (setAvoidImmediateRepeat st opts.avoidImmediateRepeat).avoidImmediateRepeat
      = opts.avoidImmediateRepeat := by
    unfold setAvoidImmediateRepeat
    split <;> rfl
  have hst1s : opts.avoidImmediateRepeat = false →
      (setAvoidImmediateRepeat st opts.avoidImmediateRepeat).selectedStudents = ∅ := by
    intro h
    simp [setAvoidImmediateRepeat, h]
  simp only [selectStudent, if_neg hlen]
  by_cases hcond : algorithm ≠ algFair ∧ storage.isSome = true
  · rw [if_pos hcond]
    by_cases hfl :
        (filterStudentsBySpecialStatus storage students algorithm).length = 0
    · rw [if_pos hfl]
      exact ⟨hst1a, hst1s⟩
    · rw [if_neg hfl]
      obtain ⟨ha, hs⟩ := selectCore_props (setAvoidImmediateRepeat st
        opts.avoidImmediateRepeat) (filterStudentsBySpecialStatus storage students algorithm)
        algorithm opts d
      exact ⟨ha.trans hst1a, fun hoff => hs (hst1a.trans hoff) (hst1s hoff)⟩
  · rw [if_neg hcond]
    obtain ⟨ha, hs⟩ := selectCore_props (setAvoidImmediateRepeat st
      opts.avoidImmediateRepeat) students algorithm opts d
    exact ⟨ha.trans hst1a, fun hoff => hs (hst1a.trans hoff) (hst1s hoff)⟩

/-- Witness for the amended claim C10 at a concrete input. -/
theorem C10_flag_overwrite_witness :
    ((selectStudent none ⟨some 1, {1}, true⟩ rosterABC algRoundRobin optsOff
          (drawR 0)).2).avoidImmediateRepeat = optsOff.avoidImmediateRepeat ∧
      (optsOff.avoidImmediateRepeat = false →
        ((selectStudent none ⟨some 1, {1}, true⟩ rosterABC algRoundRobin optsOff
            (drawR 0)).2).selectedStudents = ∅) :=
  C10_flag_overwrite _ _ _ _ _ _ (by decide)

/-- Claim C7 counterexample. With repeat-avoidance on, the second `fair`
call filters out the already-chosen entity `A`: at draw 0 it returns `B`,
while the uniform pick over the full roster that the claim mandates returns
`A` at draw 0. So under `fair` the selection is not uniform over the full
roster regardless of engine state. -/
theorem C7_fair_not_state_independent :
    (runCalls none rosterABC initialState
        [(algFair, optsOn, drawR 0), (algFair, optsOn, drawR 0)]).1
      = [some sA, some sB] ∧ claimFairUniform rosterABC 0 = some sA ∧ sB ≠ sA := by
  refine ⟨?_, ?_, by decide⟩
  · norm_num [runCalls, selectStudent, setAvoidImmediateRepeat,
      filterStudentsBySpecialStatus, dispatchAlgorithm, fairRandom, applySelection, algFair,
      rosterABC, sA, sB, sC, initialState, optsOn, drawR, randIndex_zero]
  · norm_num [claimFairUniform, rosterABC, randIndex_zero]

lemma fairRandom_off (st : EngineState) (students : List Student) (r : ℚ)
    (hoff : st.avoidImmediateRepeat = false) (h0 : 0 ≤ r) (h1 : r < 1) :
    fairRandom st students r = claimFairUniform students r := by
  unfold fairRandom claimFairUniform
  by_cases hlen : students.length = 0
  · obtain rfl := List.length_eq_zero.mp hlen
    simp
  rw [if_neg hlen]
  by_cases h1len : students.length = 1
  · obtain ⟨a, rfl⟩ := List.length_eq_one.mp h1len
    rw [if_pos h1len]
    simp [randIndex_one h0 h1]
  rw [if_neg h1len, if_neg (by simp [hoff])]

/-- Claim C7, amended: under the fair policy the collaborator exclusion
predicate is never consulted (the result does not depend on the storage
manager at all), and with repeat-avoidance off the selection is the uniform
pick over the full input roster; with repeat-avoidance on, entities already
chosen this cycle are filtered out, as the counterexample shows. -/
theorem C7_fair_uniform :
    (∀ (storage₁ storage₂ : Option (Nat → String → Bool)) (st : EngineState)
        (students : List Student) (opts : Options) (d : Draw),
        selectStudent storage₁ st students algFair opts d
          = selectStudent storage₂ st students algFair opts d) ∧
    (∀ (storage : Option (Nat → String → Bool)) (st : EngineState)
        (students : List Student) (opts : Options) (d : Draw),
        opts.avoidImmediateRepeat = false → 0 ≤ d.r → d.r < 1 →
        (selectStudent storage st students algFair opts d).1
          = claimFairUniform students d.r) := by
  constructor
  · intro storage₁ storage₂ st students opts d
    simp [selectStudent]
  · intro storage st students opts d hoff h0 h1
    by_cases hlen : students.length = 0
    · obtain rfl := List.length_eq_zero.mp hlen
      simp [selectStudent, claimFairUniform]
    · simp only [selectStudent, if_neg hlen, ne_eq, not_true_eq_false, false_and, if_false,
        dispatchAlgorithm, algFair]
      rw [applySelection_fst]
      exact fairRandom_off _ _ _ (by simp [setAvoidImmediateRepeat, hoff]) h0 h1

/-- Witness for the amended claim C7 at a concrete input. -/
theorem C7_fair_uniform_witness :
    (selectStudent none initialState rosterABC algFair optsOff (drawR 0)).1
      = claimFairUniform rosterABC (drawR 0).r :=
  C7_fair_uniform.2 none initialState rosterABC optsOff (drawR 0) rfl (le_refl 0)
    (by norm_num [drawR])

/-- Claim C4 counterexample. Two `weighted` calls with repeat-avoidance on
over two entities with equal call counts: after the first call selects `A`,
the source stops doubling (the excluded set has size 1 = roster size - 1),
so at draw 9/20 the second call again returns `A`; the weights the claim
mandates (`A` kept at 1, the unchosen `B` doubled to 2) would make the very
same draw return `B`. -/
theorem C4_doubling_condition_mismatch :
    (runCalls none [sA, sB] initialState
        [(algWeighted, optsOn, drawR 0), (algWeighted, optsOn, drawR (9 / 20))])
      = ([some sA, some sA], ⟨some 1, {1}, true⟩) ∧
    claimWeightedSelect ⟨some 1, {1}, true⟩ [sA, sB] (9 / 20) = some sB ∧ sB ≠ sA := by
  refine ⟨?_, ?_, by decide⟩
  · norm_num [runCalls, selectStudent, setAvoidImmediateRepeat,
      filterStudentsBySpecialStatus, dispatchAlgorithm, weightedRandom, selectByWeight,
      weightWalk, maxOfList, applySelection, algWeighted, algFair, sA, sB, initialState,
      optsOn, drawR]
  · norm_num [claimWeightedSelect, claimWeight, maxOfList, selectByWeight, weightWalk,
      sA, sB]

lemma weightWalk_singleton (a : Student) (w x : ℚ) :
    weightWalk [(a, w)] x = if x - w ≤ 0 then some a else none := by
  unfold weightWalk
  rfl

lemma selectByWeight_singleton (a : Student) (w q : ℚ) (hw : 0 < w) :
    selectByWeight [(a, w)] q = some a := by
  unfold selectByWeight
  rw [if_neg (by simpa using not_le.mpr hw), weightWalk_singleton]
  split_ifs <;> simp [List.getLast?]

/-- Claim C4, amended: `weightedRandom` equals the weighted selection built
from the claim weight formula once the doubling is restricted (as in the
source) to the case where the excluded set is smaller than the roster size
minus one; the draw then proceeds exactly as the claim describes (total
weight, uniform value, subtraction walk, degenerate uniform fallback). -/
theorem C4_weighted_formula (st : EngineState) (students : List Student) (r : ℚ) :
    weightedRandom st students r = amendedWeightedSelect st students r := by
  unfold weightedRandom amendedWeightedSelect
  by_cases hlen : students.length = 0
  · obtain rfl := List.length_eq_zero.mp hlen
    simp [selectByWeight]
  rw [if_neg hlen]
  by_cases h1len : students.length = 1
  · obtain ⟨a, rfl⟩ := List.length_eq_one.mp h1len
    rw [if_pos h1len]
    have hw : amendedWeight st [a] a = 1 := by
      unfold amendedWeight
      simp [maxOfList]
    rw [List.map_singleton, hw, selectByWeight_singleton a 1 r one_pos]
    rfl
  rw [if_neg h1len]
  apply congrArg (fun l => selectByWeight l r)
  by_cases hcond : st.avoidImmediateRepeat ∧ st.selectedStudents.card < students.length - 1
  · rw [if_pos hcond, List.map_map]
    apply List.map_congr_left
    intro a ha
    by_cases hm : a.id ∉ st.selectedStudents
    · simp only [Function.comp_apply, if_pos hm]
      unfold amendedWeight
      rw [if_pos ⟨hcond.1, hcond.2, hm⟩]
    · simp only [Function.comp_apply, if_neg hm]
      unfold amendedWeight
      rw [if_neg (by tauto), mul_one]
  · rw [if_neg hcond]
    apply List.map_congr_left
    intro a ha
    unfold amendedWeight
    rw [if_neg (fun h => hcond ⟨h.1, h.2.1⟩), mul_one]

/-- Witness for the amended claim C4 at a concrete input. -/
theorem C4_weighted_formula_witness :
    weightedRandom ⟨some 1, {1}, true⟩ [sA, sB] (9 / 20)
      = amendedWeightedSelect ⟨some 1, {1}, true⟩ [sA, sB] (9 / 20) :=
  C4_weighted_formula _ _ _

/-- Claim C6 counterexample. With repeat-avoidance on and roster
`[A (callCount 0), B (callCount 5)]`, the second `leastCalled` call is
restricted to the not-yet-chosen entities and returns `B` with call count
5, although the eligible roster still contains `A` with the minimum call
count 0. -/
theorem C6_avoid_breaks_min :
    (runCalls none rosterAB5 initialState
        [(algLeastCalled, optsOn, drawR 0), (algLeastCalled, optsOn, drawR 0)]).1
      = [some sA, some sB5] ∧ sA.callCount = 0 ∧ sB5.callCount = 5 ∧ sA ∈ rosterAB5 := by
  refine ⟨?_, rfl, rfl, by decide⟩
  norm_num [runCalls, selectStudent, setAvoidImmediateRepeat, filterStudentsBySpecialStatus,
    dispatchAlgorithm, leastCalledFirst, lcNormalPick, lcComparator, List.insertionSort,
    List.orderedInsert, minOfList, applySelection, algLeastCalled, algFair, rosterAB5,
    sA, sB5, initialState, optsOn, drawR, randIndex_zero]

lemma lcNormalPick_spec {l : List Student} {r : ℚ} {s : Student}
    (h : lcNormalPick l r = some s) :
    s ∈ l ∧ ∀ t ∈ l, s.callCount ≤ t.callCount := by
  unfold lcNormalPick at h
  have hs := List.getElem?_mem h
  have hmem := List.mem_filter.mp hs
  refine ⟨hmem.1, ?_⟩
  intro t ht
  have hcc : s.callCount = minOfList (l.map Student.callCount) := by
    simpa using hmem.2
  rw [hcc]
  exact minOfList_le (List.mem_map_of_mem Student.callCount ht)

/-- First part of the amended claim C6, as a standalone lemma: whatever
`leastCalledFirst` returns has the minimum call count within the candidate
pool, where the pool is the not-yet-chosen subset when repeat-avoidance is
on and that subset is non-empty, and the whole (eligible) roster
otherwise. -/
lemma leastCalled_min {st : EngineState} {students : List Student} {r : ℚ} {s : Student}
    (h : leastCalledFirst st students r = some s) :
    s ∈ lcPool st students ∧ ∀ t ∈ lcPool st students, s.callCount ≤ t.callCount := by
  unfold leastCalledFirst at h
  by_cases hlen : students.length = 0
  · rw [if_pos hlen] at h
    cases h
  rw [if_neg hlen] at h
  by_cases h1len : students.length = 1
  · obtain ⟨a, rfl⟩ := List.length_eq_one.mp h1len
    rw [if_pos h1len] at h
    have hsa : s = a := by
      simpa using h.symm
    subst hsa
    unfold lcPool
    by_cases hc : st.avoidImmediateRepeat = true ∧
        List.filter (fun t => decide (t.id ∉ st.selectedStudents)) [s] ≠ []
    · rw [if_pos hc]
      have hf : List.filter (fun t => decide (t.id ∉ st.selectedStudents)) [s] = [s] := by
        by_cases hp : s.id ∉ st.selectedStudents
        · simp [hp]
        · exact absurd (by simp [hp]) hc.2
      rw [hf]
      exact ⟨List.mem_singleton_self s, fun t ht => by
        rw [List.mem_singleton.mp ht]⟩
    · rw [if_neg hc]
      exact ⟨List.mem_singleton_self s, fun t ht => by
        rw [List.mem_singleton.mp ht]⟩
  rw [if_neg h1len] at h
  have hperm : List.Perm (List.insertionSort (fun a b => lcComparator st a b ≤ 0) students)
      students := List.perm_insertionSort _ _
  have hpermf : List.Perm
      (List.filter (fun t => decide (t.id ∉ st.selectedStudents))
        (List.insertionSort (fun a b => lcComparator st a b ≤ 0) students))
      (List.filter (fun t => decide (t.id ∉ st.selectedStudents)) students) :=
    hperm.filter _
  by_cases hav : st.avoidImmediateRepeat = true
  · rw [if_pos hav] at h
    by_cases hpos : 0 < (List.filter (fun t => decide (t.id ∉ st.selectedStudents))
        (List.insertionSort (fun a b => lcComparator st a b ≤ 0) students)).length
    · rw [if_pos hpos] at h
      obtain ⟨hm, hb⟩ := lcNormalPick_spec h
      have hpoolpos : List.filter (fun t => decide (t.id ∉ st.selectedStudents)) students
          ≠ [] := by
        rw [← List.length_pos, ← hpermf.length_eq]
        exact hpos
      unfold lcPool
      rw [if_pos ⟨hav, hpoolpos⟩]
      exact ⟨hpermf.mem_iff.mp hm, fun t ht => hb t (hpermf.mem_iff.mpr ht)⟩
    · rw [if_neg hpos] at h
      obtain ⟨hm, hb⟩ := lcNormalPick_spec h
      have hpoolnil : List.filter (fun t => decide (t.id ∉ st.selectedStudents)) students
          = [] := by
        rw [← List.length_eq_zero, ← hpermf.length_eq]
        omega
      unfold lcPool
      rw [if_neg fun hcc => hcc.2 hpoolnil]
      exact ⟨hperm.mem_iff.mp hm, fun t ht => hb t (hperm.mem_iff.mpr ht)⟩
  · rw [if_neg hav] at h
    obtain ⟨hm, hb⟩ := lcNormalPick_spec h
    unfold lcPool
    rw [if_neg (by simp [hav])]
    exact ⟨hperm.mem_iff.mp hm, fun t ht => hb t (hperm.mem_iff.mpr ht)⟩

/-- Claim C6, amended: the entity returned by `leastCalledFirst` always has
the minimum call count within the candidate pool of the amended claim (the
not-yet-chosen eligible entities when repeat-avoidance is on and any exist,
otherwise all eligible entities); and on the scenario roster
`[{id 1, cc 5}, {id 2, cc 0}, {id 3, cc 2}]` the engine deterministically
returns the entity with id 2 for every draw. -/
theorem C6_least_called_min :
    (∀ (st : EngineState) (students : List Student) (r : ℚ) (s : Student),
        leastCalledFirst st students r = some s →
        s ∈ lcPool st students ∧ ∀ t ∈ lcPool st students, s.callCount ≤ t.callCount) ∧
    (∀ r : ℚ, 0 ≤ r → r < 1 →
        (selectStudent none initialState rosterScenario algLeastCalled optsOff
            (drawR r)).1 = some ⟨2, "B", 0, none⟩) := by
  constructor
  · intro st students r s h
    exact leastCalled_min h
  · intro r h0 h1
    have hidx := randIndex_one h0 h1
    norm_num [selectStudent, setAvoidImmediateRepeat, filterStudentsBySpecialStatus,
      dispatchAlgorithm, leastCalledFirst, lcNormalPick, lcComparator, List.insertionSort,
      List.orderedInsert, minOfList, applySelection, applySelection_fst, algLeastCalled,
      algFair, rosterScenario, initialState, optsOff, drawR, hidx]

/-- Witness for the amended claim C6 at a concrete input. -/
theorem C6_least_called_min_witness :
    (selectStudent none initialState rosterScenario algLeastCalled optsOff
        (drawR 0)).1 = some ⟨2, "B", 0, none⟩ :=
  C6_least_called_min.2 0 (le_refl 0) (by norm_num)

end DMDM
